import Mathlib

/-!
Shallow embedding of the configuration-resolution and repository-URL
components of release-plz (`crates/release_plz/src/config.rs` and
`crates/release_plz_core/src/repo_url.rs`), together with theorems
checking the natural-language specification against the code.

Rust `Option<T>` becomes `Option T`, `String`/`PathBuf` become `String`,
`u16` becomes `Nat`, `Duration` becomes a number of seconds (`Nat`),
`anyhow::Result<T>` becomes `Except String T`.
-/

/-- Release type tag (`ReleaseType` in config.rs): `prod`, `pre` or `auto`. -/
inductive ReleaseType where
  | Prod
  | Pre
  | Auto
deriving DecidableEq, Repr

/-- Configuration that can be specified both at the workspace and at the
package level (`PackageConfig` in config.rs). Every field is optional:
`none` means "inherit / not decided at this level". -/
structure PackageConfig where
  changelog_update : Option Bool := none
  git_release_enable : Option Bool := none
  git_release_type : Option ReleaseType := none
  git_release_draft : Option Bool := none
  git_tag_enable : Option Bool := none
  publish : Option Bool := none
  publish_allow_dirty : Option Bool := none
  publish_no_verify : Option Bool := none
  semver_check : Option Bool := none
  release : Option Bool := none
deriving DecidableEq, Repr

/-- `PackageConfig::merge(self, default)` from config.rs: field-wise
right-biased coalesce, `self.field.or(default.field)` for every field. -/
def PackageConfig.merge (self default : PackageConfig) : PackageConfig :=
  { semver_check := self.semver_check.or default.semver_check
    changelog_update := self.changelog_update.or default.changelog_update
    git_release_enable := self.git_release_enable.or default.git_release_enable
    git_release_type := self.git_release_type.or default.git_release_type
    git_release_draft := self.git_release_draft.or default.git_release_draft
    publish := self.publish.or default.publish
    publish_allow_dirty := self.publish_allow_dirty.or default.publish_allow_dirty
    publish_no_verify := self.publish_no_verify.or default.publish_no_verify
    git_tag_enable := self.git_tag_enable.or default.git_tag_enable
    release := self.release.or default.release }

/-- Package-level configuration (`PackageSpecificConfig` in config.rs):
the shared `PackageConfig` plus the package-only changelog path and
changelog-include fields. -/
structure PackageSpecificConfig where
  common : PackageConfig
  changelog_path : Option String := none
  changelog_include : Option (List String) := none
deriving DecidableEq, Repr

/-- `PackageSpecificConfig::merge(self, default)` from config.rs: merge the
embedded common part, keep `changelog_path` and `changelog_include` from
the package-specific side. -/
def PackageSpecificConfig.merge (self : PackageSpecificConfig)
    (default : PackageConfig) : PackageSpecificConfig :=
  { common := self.common.merge default
    changelog_path := self.changelog_path
    changelog_include := self.changelog_include }

/-- A package entry of the configuration file
(`PackageSpecificConfigWithName` in config.rs). -/
structure PackageSpecificConfigWithName where
  name : String
  config : PackageSpecificConfig
deriving DecidableEq, Repr

/-- Workspace-level configuration (`Workspace` in config.rs). -/
structure Workspace where
  packages_defaults : PackageConfig := {}
  allow_dirty : Option Bool := none
  changelog_config : Option String := none
  dependencies_update : Option Bool := none
  pr_draft : Bool := false
  pr_labels : List String := []
  publish_timeout : Option String := none
  repo_url : Option String := none
deriving DecidableEq, Repr

/-- Root configuration (`Config` in config.rs): a workspace section plus an
ordered list of package entries. -/
structure Config where
  workspace : Workspace := {}
  package : List PackageSpecificConfigWithName := []
deriving DecidableEq, Repr

/-- `release_plz_core::UpdateConfig`. Its three fields and their meaning are
visible in the `From<PackageConfig> for UpdateConfig` impl in config.rs. -/
structure UpdateConfig where
  semver_check : Bool
  changelog_update : Bool
  release : Bool
deriving DecidableEq, Repr

/-- `From<PackageConfig> for release_plz_core::UpdateConfig` (config.rs):
every flag is enabled unless the optional field is explicitly `false`. -/
def PackageConfig.toUpdateConfig (config : PackageConfig) : UpdateConfig :=
  { semver_check := config.semver_check != some false
    changelog_update := config.changelog_update != some false
    release := config.release != some false }

/-- Modelled from the spec: `release_plz_core::PublishConfig` (the crate's
request types are not under src/). The resolved publish part of a release
configuration: enabled flag plus the `--no-verify` / `--allow-dirty`
cargo-publish flags, which default to off. -/
structure PublishConfig where
  enabled : Bool
  no_verify : Bool := false
  allow_dirty : Bool := false
deriving DecidableEq, Repr

/-- Modelled from the spec: `release_plz_core::GitReleaseConfig`
(not under src/): git-release enabled flag and draft flag. -/
structure GitReleaseConfig where
  enabled : Bool
  draft : Bool := false
deriving DecidableEq, Repr

/-- Modelled from the spec: `release_plz_core::GitTagConfig`
(not under src/): git-tag enabled flag. -/
structure GitTagConfig where
  enabled : Bool
deriving DecidableEq, Repr

/-- Modelled from the spec: `release_plz_core::ReleaseConfig`
(not under src/). Resolved release configuration: publish, git-release,
git-tag parts and the overall release-enable flag; the default has
everything enabled, draft off and the publish flags off, as required by
the spec's "enabled unless explicitly false" conversion policy. -/
structure ReleaseConfig where
  publish : PublishConfig := { enabled := true }
  git_release : GitReleaseConfig := { enabled := true }
  git_tag : GitTagConfig := { enabled := true }
  release : Bool := true
deriving DecidableEq, Repr

/-- Modelled from the spec: `ReleaseConfig::with_no_verify` setter used by
the conversion in config.rs. -/
def ReleaseConfig.with_no_verify (cfg : ReleaseConfig) (no_verify : Bool) :
    ReleaseConfig :=
  { cfg with publish := { cfg.publish with no_verify := no_verify } }

/-- Modelled from the spec: `ReleaseConfig::with_allow_dirty` setter used by
the conversion in config.rs. -/
def ReleaseConfig.with_allow_dirty (cfg : ReleaseConfig) (allow_dirty : Bool) :
    ReleaseConfig :=
  { cfg with publish := { cfg.publish with allow_dirty := allow_dirty } }

/-- `From<PackageConfig> for release_plz_core::ReleaseConfig` (config.rs):
publish / git-release / git-tag / release are enabled unless explicitly
`false`, draft only if explicitly `true`; then the optional publish
no-verify / allow-dirty flags are applied when present. -/
def PackageConfig.toReleaseConfig (value : PackageConfig) : ReleaseConfig :=
  let is_publish_enabled := value.publish != some false
  let is_git_release_enabled := value.git_release_enable != some false
  let is_git_release_draft := value.git_release_draft == some true
  let is_git_tag_enabled := value.git_tag_enable != some false
  let release := value.release != some false
  let cfg : ReleaseConfig :=
    { publish := { enabled := is_publish_enabled }
      git_release := { enabled := is_git_release_enabled, draft := is_git_release_draft }
      git_tag := { enabled := is_git_tag_enabled }
      release := release }
  let cfg := match value.publish_no_verify with
    | some no_verify => cfg.with_no_verify no_verify
    | none => cfg
  match value.publish_allow_dirty with
    | some allow_dirty => cfg.with_allow_dirty allow_dirty
    | none => cfg

/-- `release_plz_core::PackageUpdateConfig` as built by the
`From<PackageSpecificConfig>` impl in config.rs: generic update config plus
changelog path and changelog-include list. -/
structure PackageUpdateConfig where
  generic : UpdateConfig
  changelog_path : Option String
  changelog_include : List String
deriving DecidableEq, Repr

/-- `From<PackageSpecificConfig> for release_plz_core::PackageUpdateConfig`
(config.rs). -/
def PackageSpecificConfig.toPackageUpdateConfig (config : PackageSpecificConfig) :
    PackageUpdateConfig :=
  { generic := config.common.toUpdateConfig
    changelog_path := config.changelog_path
    changelog_include := config.changelog_include.getD [] }

/-- `release_plz_core::PackageReleaseConfig` as built by the
`From<PackageSpecificConfig>` impl in config.rs: generic release config plus
changelog path. -/
structure PackageReleaseConfig where
  generic : ReleaseConfig
  changelog_path : Option String
deriving DecidableEq, Repr

/-- `From<PackageSpecificConfig> for release_plz_core::PackageReleaseConfig`
(config.rs). -/
def PackageSpecificConfig.toPackageReleaseConfig (config : PackageSpecificConfig) :
    PackageReleaseConfig :=
  { generic := config.common.toReleaseConfig
    changelog_path := config.changelog_path }

/-- Modelled from the spec: `release_plz_core::UpdateRequest` (not under
src/), observed through the two setters config.rs calls on it: a default
per-package update configuration and a per-package-name map of update
configurations. The map is a function, the observational view of the
crate's keyed collection. -/
structure UpdateRequest where
  default_package_config : UpdateConfig
  packages_config : String → Option PackageUpdateConfig

/-- Modelled from the spec: `UpdateRequest::with_default_package_config`. -/
def UpdateRequest.with_default_package_config (r : UpdateRequest)
    (c : UpdateConfig) : UpdateRequest :=
  { r with default_package_config := c }

/-- Modelled from the spec: `UpdateRequest::with_package_config` sets the
configuration of one package name. -/
def UpdateRequest.with_package_config (r : UpdateRequest) (package : String)
    (c : PackageUpdateConfig) : UpdateRequest :=
  { r with packages_config := fun k =>
      if k = package then some c else r.packages_config k }

/-- Modelled from the spec: `release_plz_core::ReleaseRequest` (not under
src/), observed through the two setters config.rs calls on it. -/
structure ReleaseRequest where
  default_package_config : ReleaseConfig
  packages_config : String → Option PackageReleaseConfig

/-- Modelled from the spec: `ReleaseRequest::with_default_package_config`. -/
def ReleaseRequest.with_default_package_config (r : ReleaseRequest)
    (c : ReleaseConfig) : ReleaseRequest :=
  { r with default_package_config := c }

/-- Modelled from the spec: `ReleaseRequest::with_package_config` sets the
configuration of one package name. -/
def ReleaseRequest.with_package_config (r : ReleaseRequest) (package : String)
    (c : PackageReleaseConfig) : ReleaseRequest :=
  { r with packages_config := fun k =>
      if k = package then some c else r.packages_config k }

/-- `Config::packages` (config.rs): collect the package entries into a map
keyed by name; later insertions overwrite earlier ones, as in
`HashMap::from_iter`. The `HashMap` is embedded observationally as the
function from names to configurations it represents. -/
def Config.packages (c : Config) : String → Option PackageSpecificConfig :=
  c.package.foldl
    (fun m p => fun k => if k = p.name then some p.config else m k)
    (fun _ => none)

/-- The entry list of the `Config::packages` map: each declared name paired
with the map's value for it. A `HashMap` iterates each key exactly once in
an unspecified order; visiting a duplicated name more than once is
observationally identical because the paired value is the map's (last)
value for that name, so this list is a faithful view of the iteration. -/
def Config.packagesList (c : Config) : List (String × PackageSpecificConfig) :=
  (c.package.map (fun p => p.name)).filterMap
    (fun n => (c.packages n).map (fun cfg => (n, cfg)))

/-- `Config::fill_update_config` (config.rs): force the changelog-update off
in the workspace defaults when disabled, install them as the request's
default package config, then for every declared package merge its config
with the workspace defaults, force changelog-update off when disabled, and
install it under the package's name. -/
def Config.fill_update_config (c : Config)
    (is_changelog_update_disabled : Bool)
    (update_request : UpdateRequest) : UpdateRequest :=
  let default_update_config := c.workspace.packages_defaults
  let default_update_config :=
    if is_changelog_update_disabled then
      { default_update_config with changelog_update := some false }
    else default_update_config
  let update_request :=
    update_request.with_default_package_config default_update_config.toUpdateConfig
  c.packagesList.foldl
    (fun update_request p =>
      let update_config := p.2.merge c.workspace.packages_defaults
      let update_config :=
        if is_changelog_update_disabled then
          { update_config with
              common := { update_config.common with changelog_update := some false } }
        else update_config
      update_request.with_package_config p.1 update_config.toPackageUpdateConfig)
    update_request

/-- `Config::fill_release_config` (config.rs): force publish-no-verify and
publish-allow-dirty on in the workspace defaults when the corresponding
flag is set, install them as the request's default package config, then for
every declared package merge its config with the workspace defaults, force
the flags again on the merged result, and install it under the package's
name. -/
def Config.fill_release_config (c : Config)
    (allow_dirty no_verify : Bool)
    (release_request : ReleaseRequest) : ReleaseRequest :=
  let default_config := c.workspace.packages_defaults
  let default_config :=
    if no_verify then { default_config with publish_no_verify := some true }
    else default_config
  let default_config :=
    if allow_dirty then { default_config with publish_allow_dirty := some true }
    else default_config
  let release_request :=
    release_request.with_default_package_config default_config.toReleaseConfig
  c.packagesList.foldl
    (fun release_request p =>
      let release_config := p.2.merge c.workspace.packages_defaults
      let release_config :=
        if no_verify then
          { release_config with
              common := { release_config.common with publish_no_verify := some true } }
        else release_config
      let release_config :=
        if allow_dirty then
          { release_config with
              common := { release_config.common with publish_allow_dirty := some true } }
        else release_config
      release_request.with_package_config p.1 release_config.toPackageReleaseConfig)
    release_request

/-- Modelled from the spec: the external `duration_str::parse` as used by
`Workspace::publish_timeout` — parses a human-readable duration string such
as "30m" (digits followed by an optional unit) into a number of seconds,
failing on anything else. -/
def duration_str_parse (s : String) : Option Nat :=
  let digits := s.toList.takeWhile Char.isDigit
  let unit := s.toList.dropWhile Char.isDigit
  if digits.isEmpty then none
  else
    let value := digits.foldl (fun n c => n * 10 + (c.toNat - Char.toNat '0')) 0
    match unit with
    | [] => some value
    | ['s'] => some value
    | ['m'] => some (value * 60)
    | ['h'] => some (value * 3600)
    | ['d'] => some (value * 86400)
    | _ => none

/-- `Workspace::publish_timeout` (config.rs): parse the configured
publish-timeout string, defaulting to "30m" when unset; on a parse failure
return an error naming the invalid value. (Named `publishTimeout` because
the Rust method shares its name with the field.) -/
def Workspace.publishTimeout (w : Workspace) : Except String Nat :=
  let publish_timeout := w.publish_timeout.getD "30m"
  match duration_str_parse publish_timeout with
  | some d => Except.ok d
  | none => Except.error ("invalid publish_timeout " ++ publish_timeout)

/-- Structured remote URL (`RepoUrl` in repo_url.rs): scheme, host, optional
port, owner and repository name, immutable once parsed. -/
structure RepoUrl where
  scheme : String
  host : String
  port : Option Nat
  owner : String
  name : String
deriving DecidableEq, Repr

/-- The parse result of the external `git_url_parse::GitUrl` parser, as
consumed by `RepoUrl::new`: optional owner, name, optional host, optional
port, scheme. The parser itself is external; `RepoUrl::new` is embedded as
a function of its output. -/
structure GitUrl where
  owner : Option String
  name : String
  host : Option String
  port : Option Nat
  scheme : String
deriving DecidableEq, Repr

/-- `RepoUrl::new` (repo_url.rs), given the parser's output for
`git_host_url`: fail naming the input when the owner is missing, fail
(with a distinct message) naming the input when the host is missing,
otherwise build the `RepoUrl` from the parsed parts. -/
def RepoUrl.new (git_host_url : String) (git_url : GitUrl) :
    Except String RepoUrl :=
  match git_url.owner with
  | none => Except.error ("cannot find owner in git url " ++ git_host_url)
  | some owner =>
    let name := git_url.name
    match git_url.host with
    | none => Except.error ("cannot find host in git url " ++ git_host_url)
    | some host =>
      let port := git_url.port
      let scheme := git_url.scheme
      Except.ok { owner := owner, name := name, host := host, port := port,
                  scheme := scheme }

/-- Substring containment, the embedding of Rust's `str::contains` with a
string pattern: some suffix of `s` starts with `pat`. -/
def strContains (s pat : String) : Bool :=
  s.toList.tails.any (fun t => pat.toList.isPrefixOf t)

/-- `RepoUrl::is_on_github` (repo_url.rs): the host contains "github". -/
def RepoUrl.is_on_github (r : RepoUrl) : Bool :=
  strContains r.host "github"

/-- `RepoUrl::git_release_link` (repo_url.rs): hardcoded-https base, then a
tag link when the two tags are equal and a compare link otherwise. -/
def RepoUrl.git_release_link (r : RepoUrl) (prev_tag new_tag : String) :
    String :=
  let host := "https://" ++ r.host ++ "/" ++ r.owner ++ "/" ++ r.name
  if prev_tag = new_tag then
    host ++ "/releases/tag/" ++ new_tag
  else
    host ++ "/compare/" ++ prev_tag ++ "..." ++ new_tag

/-- `RepoUrl::git_pr_link` (repo_url.rs): hardcoded-https base, "pull" path
segment on GitHub hosts, "pulls" otherwise. -/
def RepoUrl.git_pr_link (r : RepoUrl) : String :=
  let host := "https://" ++ r.host ++ "/" ++ r.owner ++ "/" ++ r.name
  let pull_path := if r.is_on_github then "pull" else "pulls"
  host ++ "/" ++ pull_path

/-- `RepoUrl::gitea_api_url` (repo_url.rs): parsed scheme and host, the port
when one was parsed, then the `api/v1/` path. -/
def RepoUrl.gitea_api_url (r : RepoUrl) : String :=
  let v1 := "api/v1/"
  match r.port with
  | some port => r.scheme ++ "://" ++ r.host ++ ":" ++ toString port ++ "/" ++ v1
  | none => r.scheme ++ "://" ++ r.host ++ "/" ++ v1

/-- Concrete package entry that explicitly sets the three flags the
resolver force-flags must override. -/
def sampleForceEntry : PackageSpecificConfigWithName :=
  { name := "a"
    config := { common := { changelog_update := some true
                            publish_allow_dirty := some false
                            publish_no_verify := some false } } }

/-- Concrete one-package configuration for exercising the resolvers. -/
def sampleForceConfig : Config :=
  { workspace := {}, package := [sampleForceEntry] }

/-- Concrete initial update request. -/
def sampleUpdateRequest : UpdateRequest :=
  { default_package_config :=
      { semver_check := true, changelog_update := true, release := true }
    packages_config := fun _ => none }

/-- Concrete initial release request. -/
def sampleReleaseRequest : ReleaseRequest :=
  { default_package_config := {}, packages_config := fun _ => none }

/-- Concrete configuration with two package entries sharing the name "a". -/
def sampleDupConfig : Config :=
  { workspace := {}
    package := [{ name := "a", config := { common := { publish := some false } } },
                { name := "a", config := { common := { publish := some true } } }] }

/-- The duplicate-free variant of `sampleDupConfig`: only the last "a"
entry. -/
def sampleDupConfigLastOnly : Config :=
  { workspace := {}
    package := [{ name := "a", config := { common := { publish := some true } } }] }

/-! Helper lemmas shared by the claim theorems. -/

theorem option_or_right_idem {α : Type} (a b : Option α) :
    (a.or b).or b = a.or b := by
  cases a <;> cases b <;> rfl

/-- C1: `PackageConfig::merge(p, d)` yields `p`'s field when it is present
and `d`'s field otherwise, independently for every field, and
`PackageSpecificConfig::merge` merges the embedded common part the same way
while carrying `changelog_path` and `changelog_include` through unchanged
from the package-specific side. -/
theorem merge_is_fieldwise_right_biased_coalesce
    (p d : PackageConfig) (s : PackageSpecificConfig) :
    ((p.merge d).changelog_update =
      match p.changelog_update with
      | some v => some v
      | none => d.changelog_update)
    ∧ ((p.merge d).git_release_enable =
      match p.git_release_enable with
      | some v => some v
      | none => d.git_release_enable)
    ∧ ((p.merge d).git_release_type =
      match p.git_release_type with
      | some v => some v
      | none => d.git_release_type)
    ∧ ((p.merge d).git_release_draft =
      match p.git_release_draft with
      | some v => some v
      | none => d.git_release_draft)
    ∧ ((p.merge d).git_tag_enable =
      match p.git_tag_enable with
      | some v => some v
      | none => d.git_tag_enable)
    ∧ ((p.merge d).publish =
      match p.publish with
      | some v => some v
      | none => d.publish)
    ∧ ((p.merge d).publish_allow_dirty =
      match p.publish_allow_dirty with
      | some v => some v
      | none => d.publish_allow_dirty)
    ∧ ((p.merge d).publish_no_verify =
      match p.publish_no_verify with
      | some v => some v
      | none => d.publish_no_verify)
    ∧ ((p.merge d).semver_check =
      match p.semver_check with
      | some v => some v
      | none => d.semver_check)
    ∧ ((p.merge d).release =
      match p.release with
      | some v => some v
      | none => d.release)
    ∧ (s.merge d).common = s.common.merge d
    ∧ (s.merge d).changelog_path = s.changelog_path
    ∧ (s.merge d).changelog_include = s.changelog_include := by
  obtain ⟨cu, gre, grt, grd, gte, pub, pad, pnv, sc, rel⟩ := p
  refine ⟨?_, ?_, ?_, ?_, ?_, ?_, ?_, ?_, ?_, ?_, rfl, rfl, rfl⟩
  · cases cu <;> rfl
  · cases gre <;> rfl
  · cases grt <;> rfl
  · cases grd <;> rfl
  · cases gte <;> rfl
  · cases pub <;> rfl
  · cases pad <;> rfl
  · cases pnv <;> rfl
  · cases sc <;> rfl
  · cases rel <;> rfl

/-- C4: `PackageConfig::merge` is idempotent in its default argument —
merging the merged result with the same default again changes nothing —
and it is not commutative. -/
theorem merge_idempotent_and_not_commutative :
    (∀ p d : PackageConfig, (p.merge d).merge d = p.merge d)
    ∧ ∃ p d : PackageConfig, p.merge d ≠ d.merge p := by
  constructor
  · intro p d
    simp only [PackageConfig.merge, option_or_right_idem]
  · exact ⟨{ changelog_update := some true },
      { changelog_update := some false }, by decide⟩

/-- C3: converting an all-`none` `PackageConfig` yields a release
configuration with publish enabled, git release enabled and not draft, git
tag enabled and release enabled, and an update configuration with
semver-check, changelog-update and release all true; in general every
"enabled unless false" flag is true exactly when the optional field is not
`some false`, and the draft flag is true exactly when the field is
`some true`. -/
theorem conversions_enabled_unless_false :
    (({} : PackageConfig).merge {} = ({} : PackageConfig))
    ∧ (({} : PackageConfig).toReleaseConfig =
        { publish := { enabled := true, no_verify := false, allow_dirty := false }
          git_release := { enabled := true, draft := false }
          git_tag := { enabled := true }
          release := true })
    ∧ (({} : PackageConfig).toUpdateConfig =
        { semver_check := true, changelog_update := true, release := true })
    ∧ ∀ v : PackageConfig,
        ((v.toReleaseConfig.publish.enabled = true) ↔ v.publish ≠ some false)
        ∧ ((v.toReleaseConfig.git_release.enabled = true) ↔
            v.git_release_enable ≠ some false)
        ∧ ((v.toReleaseConfig.git_release.draft = true) ↔
            v.git_release_draft = some true)
        ∧ ((v.toReleaseConfig.git_tag.enabled = true) ↔
            v.git_tag_enable ≠ some false)
        ∧ ((v.toReleaseConfig.release = true) ↔ v.release ≠ some false)
        ∧ ((v.toUpdateConfig.semver_check = true) ↔ v.semver_check ≠ some false)
        ∧ ((v.toUpdateConfig.changelog_update = true) ↔
            v.changelog_update ≠ some false)
        ∧ ((v.toUpdateConfig.release = true) ↔ v.release ≠ some false) := by
  refine ⟨by decide, by decide, by decide, ?_⟩
  intro v
  obtain ⟨cu, gre, grt, grd, gte, pub, pad, pnv, sc, rel⟩ := v
  cases pad <;> cases pnv <;>
    simp [PackageConfig.toReleaseConfig, PackageConfig.toUpdateConfig,
      ReleaseConfig.with_no_verify, ReleaseConfig.with_allow_dirty,
      bne_iff_ne, beq_iff_eq]

/-- C5: `git_release_link` returns the tag link when the two tags are equal
as strings and the compare link otherwise; the result always starts with
the literal "https" scheme, independent of the parsed scheme. -/
theorem git_release_link_tag_or_compare (r : RepoUrl)
    (prev_tag new_tag : String) :
    (prev_tag = new_tag →
      r.git_release_link prev_tag new_tag =
        "https://" ++ r.host ++ "/" ++ r.owner ++ "/" ++ r.name ++
          "/releases/tag/" ++ new_tag)
    ∧ (prev_tag ≠ new_tag →
      r.git_release_link prev_tag new_tag =
        "https://" ++ r.host ++ "/" ++ r.owner ++ "/" ++ r.name ++
          "/compare/" ++ prev_tag ++ "..." ++ new_tag)
    ∧ ∀ s : String,
        RepoUrl.git_release_link { r with scheme := s } prev_tag new_tag =
          r.git_release_link prev_tag new_tag := by
  refine ⟨fun h => ?_, fun h => ?_, fun s => rfl⟩
  · simp [RepoUrl.git_release_link, h]
  · simp [RepoUrl.git_release_link, h]

/-- C5 witness: evaluated on the repository's own test data, both the
first-release case and the compare case. -/
theorem git_release_link_tag_or_compare_witness :
    (("v0.0.1" : String) = "v0.0.1"
      ∧ ({ scheme := "https", host := "github.com", port := none,
           owner := "MarcoIeni", name := "release-plz" } : RepoUrl).git_release_link
          "v0.0.1" "v0.0.1" =
        "https://" ++ "github.com" ++ "/" ++ "MarcoIeni" ++ "/" ++
          "release-plz" ++ "/releases/tag/" ++ "v0.0.1")
    ∧ (("v0.1.0" : String) ≠ "v0.5.0"
      ∧ ({ scheme := "https", host := "github.com", port := none,
           owner := "MarcoIeni", name := "release-plz" } : RepoUrl).git_release_link
          "v0.1.0" "v0.5.0" =
        "https://" ++ "github.com" ++ "/" ++ "MarcoIeni" ++ "/" ++
          "release-plz" ++ "/compare/" ++ "v0.1.0" ++ "..." ++ "v0.5.0") :=
  ⟨⟨rfl, (git_release_link_tag_or_compare _ _ _).1 rfl⟩,
   ⟨by decide, (git_release_link_tag_or_compare _ _ _).2.1 (by decide)⟩⟩

/-- C6: `is_on_github` is true exactly when the host string contains the
substring "github", and `git_pr_link` appends "pull" on GitHub hosts and
"pulls" otherwise to the hardcoded-https base. -/
theorem is_on_github_substring_and_pr_link (r : RepoUrl) :
    (r.is_on_github = true ↔ List.IsInfix "github".toList r.host.toList)
    ∧ r.git_pr_link =
        (if r.is_on_github then
          "https://" ++ r.host ++ "/" ++ r.owner ++ "/" ++ r.name ++ "/pull"
        else
          "https://" ++ r.host ++ "/" ++ r.owner ++ "/" ++ r.name ++ "/pulls") := by
  constructor
  · constructor
    · intro h
      simp only [RepoUrl.is_on_github, strContains, List.any_eq_true,
        List.mem_tails, List.isPrefixOf_iff_prefix] at h
      obtain ⟨t, hsuf, hpre⟩ := h
      exact List.infix_iff_prefix_suffix.mpr ⟨t, hpre, hsuf⟩
    · intro h
      obtain ⟨t, hpre, hsuf⟩ := List.infix_iff_prefix_suffix.mp h
      simp only [RepoUrl.is_on_github, strContains, List.any_eq_true,
        List.mem_tails, List.isPrefixOf_iff_prefix]
      exact ⟨t, hsuf, hpre⟩
  · cases hg : r.is_on_github <;>
      (simp [RepoUrl.git_pr_link, hg]; rw [String.append_assoc]; rfl)

/-- C7: `gitea_api_url` uses the originally parsed scheme and host, includes
the port exactly when one was parsed, and ends with the API path. -/
theorem gitea_api_url_scheme_and_port (r : RepoUrl) :
    (r.port = none →
      r.gitea_api_url = r.scheme ++ "://" ++ r.host ++ "/api/v1/")
    ∧ ∀ p : Nat, r.port = some p →
      r.gitea_api_url =
        r.scheme ++ "://" ++ r.host ++ ":" ++ toString p ++ "/api/v1/" := by
  refine ⟨fun h => ?_, fun p h => ?_⟩
  · simp [RepoUrl.gitea_api_url, h]; rw [String.append_assoc]; rfl
  · simp [RepoUrl.gitea_api_url, h]; rw [String.append_assoc]; rfl

/-- C7 witness: evaluated on a Gitea-style URL with an explicit port and on
one without. -/
theorem gitea_api_url_scheme_and_port_witness :
    (({ scheme := "http", host := "localhost", port := some 3000,
        owner := "me", name := "proj" } : RepoUrl).port = some 3000
      ∧ ({ scheme := "http", host := "localhost", port := some 3000,
           owner := "me", name := "proj" } : RepoUrl).gitea_api_url =
        "http" ++ "://" ++ "localhost" ++ ":" ++ toString 3000 ++ "/api/v1/")
    ∧ (({ scheme := "ssh", host := "gitea.example.com", port := none,
          owner := "me", name := "proj" } : RepoUrl).port = none
      ∧ ({ scheme := "ssh", host := "gitea.example.com", port := none,
           owner := "me", name := "proj" } : RepoUrl).gitea_api_url =
        "ssh" ++ "://" ++ "gitea.example.com" ++ "/api/v1/") :=
  ⟨⟨rfl, (gitea_api_url_scheme_and_port _).2 3000 rfl⟩,
   ⟨rfl, (gitea_api_url_scheme_and_port _).1 rfl⟩⟩

/-- C8: `Workspace::publish_timeout` parses the configured string, uses
"30m" when the field is unset (yielding a 30-minute duration, 1800
seconds), and fails exactly when the configured string fails to parse,
with an error that names the invalid string. -/
theorem publish_timeout_default_and_error (w : Workspace) :
    (w.publish_timeout = none → w.publishTimeout = Except.ok 1800)
    ∧ ∀ s : String, w.publish_timeout = some s →
        ((∃ d, duration_str_parse s = some d ∧ w.publishTimeout = Except.ok d)
          ∨ (duration_str_parse s = none
              ∧ w.publishTimeout =
                  Except.error ("invalid publish_timeout " ++ s))) := by
  constructor
  · intro h
    unfold Workspace.publishTimeout
    rw [h]
    rfl
  · intro s hs
    have hw : w.publishTimeout =
        (match duration_str_parse s with
          | some d => Except.ok d
          | none => Except.error ("invalid publish_timeout " ++ s)) := by
      unfold Workspace.publishTimeout
      rw [hs]
      rfl
    cases hd : duration_str_parse s with
    | some d => exact Or.inl ⟨d, rfl, by rw [hw, hd]⟩
    | none => exact Or.inr ⟨rfl, by rw [hw, hd]⟩

/-- C8 witness: an unset timeout resolves to 1800 seconds and a malformed
timeout string fails naming the value. -/
theorem publish_timeout_default_and_error_witness :
    (({} : Workspace).publish_timeout = none
      ∧ ({} : Workspace).publishTimeout = Except.ok 1800)
    ∧ (({ publish_timeout := some "abc" } : Workspace).publish_timeout =
          some "abc"
      ∧ ({ publish_timeout := some "abc" } : Workspace).publishTimeout =
          Except.error ("invalid publish_timeout " ++ "abc")) := by
  refine ⟨⟨rfl, (publish_timeout_default_and_error {}).1 rfl⟩, rfl, ?_⟩
  rcases (publish_timeout_default_and_error
      { publish_timeout := some "abc" }).2 "abc" rfl with h | h
  · obtain ⟨d, hd, _⟩ := h
    rw [show duration_str_parse "abc" = none from rfl] at hd
    exact Option.noConfusion hd
  · exact h.2

/-- C9: for any input accepted by the external git-URL parser, `RepoUrl::new`
fails naming the input when the parsed URL has no owner, fails with a
distinct message naming the input when it has no host, the two messages
mention "owner" and "host" respectively and are never equal, and on
success the `RepoUrl` carries the parsed owner, name, host, port and
scheme. -/
theorem repo_url_new_owner_host_errors (git_host_url : String) (g : GitUrl) :
    (g.owner = none →
      RepoUrl.new git_host_url g =
        Except.error ("cannot find owner in git url " ++ git_host_url))
    ∧ (∀ o, g.owner = some o → g.host = none →
      RepoUrl.new git_host_url g =
        Except.error ("cannot find host in git url " ++ git_host_url))
    ∧ (∀ o h, g.owner = some o → g.host = some h →
      RepoUrl.new git_host_url g =
        Except.ok { scheme := g.scheme, host := h, port := g.port,
                    owner := o, name := g.name })
    ∧ List.IsInfix "owner".toList
        ("cannot find owner in git url " ++ git_host_url).toList
    ∧ List.IsInfix "host".toList
        ("cannot find host in git url " ++ git_host_url).toList
    ∧ ("cannot find owner in git url " ++ git_host_url ≠
        "cannot find host in git url " ++ git_host_url) := by
  obtain ⟨ow, nm, ho, pt, sc⟩ := g
  refine ⟨?_, ?_, ?_, ?_, ?_, ?_⟩
  · intro h
    subst h
    rfl
  · intro o hoo hh
    subst hoo
    subst hh
    rfl
  · intro o h hoo hh
    subst hoo
    subst hh
    rfl
  · have h1 : List.IsInfix "owner".toList
        ("cannot find owner in git url ").toList := by decide
    have h2 : List.IsPrefix ("cannot find owner in git url ").toList
        ("cannot find owner in git url " ++ git_host_url).toList :=
      ⟨git_host_url.toList, (String.data_append _ _).symm⟩
    exact h1.trans h2.isInfix
  · have h1 : List.IsInfix "host".toList
        ("cannot find host in git url ").toList := by decide
    have h2 : List.IsPrefix ("cannot find host in git url ").toList
        ("cannot find host in git url " ++ git_host_url).toList :=
      ⟨git_host_url.toList, (String.data_append _ _).symm⟩
    exact h1.trans h2.isInfix
  · intro heq
    have hlen := congrArg String.length heq
    rw [String.length_append, String.length_append] at hlen
    have h29 : ("cannot find owner in git url ").length = 29 := by decide
    have h28 : ("cannot find host in git url ").length = 28 := by decide
    rw [h29, h28] at hlen
    omega

/-- C9 witness: a parse result without owner, one with owner but without
host, and a fully parsed GitHub URL. -/
theorem repo_url_new_owner_host_errors_witness :
    (({ owner := none, name := "r", host := some "h", port := none,
        scheme := "https" } : GitUrl).owner = none
      ∧ RepoUrl.new "u"
          { owner := none, name := "r", host := some "h", port := none,
            scheme := "https" } =
        Except.error ("cannot find owner in git url " ++ "u"))
    ∧ (({ owner := some "o", name := "r", host := none, port := none,
          scheme := "https" } : GitUrl).owner = some "o"
      ∧ RepoUrl.new "u"
          { owner := some "o", name := "r", host := none, port := none,
            scheme := "https" } =
        Except.error ("cannot find host in git url " ++ "u"))
    ∧ RepoUrl.new "https://github.com/MarcoIeni/release-plz"
        { owner := some "MarcoIeni", name := "release-plz",
          host := some "github.com", port := none, scheme := "https" } =
      Except.ok { scheme := "https", host := "github.com", port := none,
                  owner := "MarcoIeni", name := "release-plz" } :=
  ⟨⟨rfl, (repo_url_new_owner_host_errors "u" _).1 rfl⟩,
   ⟨rfl, (repo_url_new_owner_host_errors "u" _).2.1 "o" rfl rfl⟩,
   (repo_url_new_owner_host_errors _ _).2.2.1 "MarcoIeni" "github.com" rfl rfl⟩

/-! Machinery for the two resolver operations: folding
`with_package_config` over the entry list of the `Config::packages` map. -/

theorem foldl_keyed_proj_const {R γ δ : Type} (proj : R → δ)
    (step : R → String × γ → R)
    (hstep : ∀ r p, proj (step r p) = proj r) :
    ∀ (l : List (String × γ)) (r0 : R), proj (l.foldl step r0) = proj r0 := by
  intro l
  induction l with
  | nil => intro r0; rfl
  | cons p l ih =>
    intro r0
    rw [List.foldl_cons, ih, hstep]

theorem foldl_keyed_lookup_not_mem {R β γ : Type}
    (proj : R → String → Option β) (step : R → String × γ → R)
    (F : String × γ → β)
    (hstep : ∀ r p k, proj (step r p) k =
      if k = p.1 then some (F p) else proj r k)
    (n : String) :
    ∀ l : List (String × γ), (∀ p ∈ l, p.1 ≠ n) →
      ∀ r0 : R, proj (l.foldl step r0) n = proj r0 n := by
  intro l
  induction l with
  | nil => intro _ r0; rfl
  | cons p l ih =>
    intro hnot r0
    rw [List.foldl_cons,
      ih (fun q hq => hnot q (List.mem_cons_of_mem p hq)), hstep,
      if_neg (fun h => hnot p (List.mem_cons_self p l) h.symm)]

theorem foldl_keyed_lookup_mem {R β γ : Type}
    (proj : R → String → Option β) (step : R → String × γ → R)
    (F : String × γ → β)
    (hstep : ∀ r p k, proj (step r p) k =
      if k = p.1 then some (F p) else proj r k)
    (M : String → Option γ) (n : String) :
    ∀ l : List (String × γ), (∀ p ∈ l, M p.1 = some p.2) →
      (∃ p ∈ l, p.1 = n) →
      ∀ r0 : R, proj (l.foldl step r0) n = (M n).map (fun v => F (n, v)) := by
  intro l
  induction l with
  | nil =>
    rintro _ ⟨p, hp, _⟩ r0
    exact absurd hp (List.not_mem_nil p)
  | cons p l ih =>
    intro hl hn r0
    rw [List.foldl_cons]
    by_cases hmem : ∃ q ∈ l, q.1 = n
    · exact ih (fun q hq => hl q (List.mem_cons_of_mem p hq)) hmem (step r0 p)
    · have hpn : p.1 = n := by
        obtain ⟨q, hq, hq1⟩ := hn
        rcases List.mem_cons.mp hq with h | h
        · subst h; exact hq1
        · exact absurd ⟨q, h, hq1⟩ hmem
      rw [foldl_keyed_lookup_not_mem proj step F hstep n l
          (fun q hq hq1 => hmem ⟨q, hq, hq1⟩) (step r0 p),
        hstep, if_pos hpn.symm, ← hpn, hl p (List.mem_cons_self p l)]
      rfl

theorem foldl_name_update_eq_find
    (l : List PackageSpecificConfigWithName) (n : String) :
    ∀ acc : String → Option PackageSpecificConfig,
      (l.foldl (fun m p => fun k => if k = p.name then some p.config else m k)
          acc) n
      = match l.reverse.find? (fun p => p.name == n) with
        | some p => some p.config
        | none => acc n := by
  induction l with
  | nil => intro acc; rfl
  | cons p l ih =>
    intro acc
    rw [List.foldl_cons, ih, List.reverse_cons, List.find?_append]
    cases hf : l.reverse.find? (fun p => p.name == n) with
    | some q => rfl
    | none =>
      by_cases hpn : p.name = n
      · rw [List.find?_cons_of_pos _ (by simp [hpn])]
        show (if n = p.name then some p.config else acc n) = some p.config
        rw [if_pos hpn.symm]
      · rw [List.find?_cons_of_neg _ (by simp [hpn]), List.find?_nil]
        show (if n = p.name then some p.config else acc n) = acc n
        rw [if_neg (fun h => hpn h.symm)]

/-- The `Config::packages` map sends a name to the configuration of the last
declared entry with that name (later insertions overwrite earlier ones). -/
theorem Config.packages_eq_find (c : Config) (n : String) :
    c.packages n =
      (c.package.reverse.find? (fun p => p.name == n)).map
        (fun p => p.config) := by
  rw [Config.packages, foldl_name_update_eq_find]
  cases c.package.reverse.find? (fun p => p.name == n) <;> rfl

theorem Config.packagesList_value (c : Config) :
    ∀ p ∈ c.packagesList, c.packages p.1 = some p.2 := by
  intro p hp
  obtain ⟨m, hm, hmap⟩ := List.mem_filterMap.mp hp
  cases h : c.packages m with
  | none => rw [h] at hmap; exact Option.noConfusion hmap
  | some cfg =>
    rw [h] at hmap
    cases Option.some.inj hmap
    exact h

theorem Config.mem_packagesList (c : Config) (n : String)
    (cfg : PackageSpecificConfig) (h : c.packages n = some cfg)
    (hocc : n ∈ c.package.map (fun p => p.name)) :
    (n, cfg) ∈ c.packagesList :=
  List.mem_filterMap.mpr ⟨n, hocc, by rw [h]; rfl⟩

theorem Config.packages_isSome_of_mem (c : Config)
    (e : PackageSpecificConfigWithName) (he : e ∈ c.package) (n : String)
    (hn : e.name = n) : ∃ cfg, c.packages n = some cfg := by
  rw [Config.packages_eq_find]
  have hs : (c.package.reverse.find? (fun p => p.name == n)).isSome := by
    rw [List.find?_isSome]
    exact ⟨e, List.mem_reverse.mpr he, by simp [hn]⟩
  obtain ⟨q, hq⟩ := Option.isSome_iff_exists.mp hs
  exact ⟨q.config, by rw [hq]; rfl⟩

/-- The per-package result installed by `fill_update_config`: the package
config merged with the workspace defaults, changelog-update forced off when
disabled, converted for the engine. -/
theorem Config.fill_update_config_lookup (c : Config) (b : Bool)
    (ur : UpdateRequest) (n : String) (cfg : PackageSpecificConfig)
    (hcfg : c.packages n = some cfg)
    (hocc : n ∈ c.package.map (fun p => p.name)) :
    (c.fill_update_config b ur).packages_config n =
      some (PackageSpecificConfig.toPackageUpdateConfig
        (let update_config := cfg.merge c.workspace.packages_defaults
         let update_config : PackageSpecificConfig :=
           if b then
             { update_config with
                 common := { update_config.common with
                   changelog_update := some false } }
           else update_config
         update_config)) := by
  have key := foldl_keyed_lookup_mem
    (fun r : UpdateRequest => r.packages_config)
    (fun (r : UpdateRequest) (p : String × PackageSpecificConfig) =>
      r.with_package_config p.1
        (PackageSpecificConfig.toPackageUpdateConfig
          (let update_config := p.2.merge c.workspace.packages_defaults
           let update_config : PackageSpecificConfig :=
             if b then
               { update_config with
                   common := { update_config.common with
                     changelog_update := some false } }
             else update_config
           update_config)))
    (fun (p : String × PackageSpecificConfig) =>
      PackageSpecificConfig.toPackageUpdateConfig
        (let update_config := p.2.merge c.workspace.packages_defaults
         let update_config : PackageSpecificConfig :=
           if b then
             { update_config with
                 common := { update_config.common with
                   changelog_update := some false } }
           else update_config
         update_config))
    (fun r p k => rfl)
    c.packages n c.packagesList (Config.packagesList_value c)
    ⟨(n, cfg), Config.mem_packagesList c n cfg hcfg hocc, rfl⟩
    (ur.with_default_package_config
      (PackageConfig.toUpdateConfig
        (let d := c.workspace.packages_defaults
         let d : PackageConfig := if b then { d with changelog_update := some false } else d
         d)))
  rw [hcfg] at key
  exact key

/-- The per-package result installed by `fill_release_config`: the package
config merged with the workspace defaults, publish-no-verify and
publish-allow-dirty forced on when the flags are set, converted for the
engine. -/
theorem Config.fill_release_config_lookup (c : Config) (ad nv : Bool)
    (rr : ReleaseRequest) (n : String) (cfg : PackageSpecificConfig)
    (hcfg : c.packages n = some cfg)
    (hocc : n ∈ c.package.map (fun p => p.name)) :
    (c.fill_release_config ad nv rr).packages_config n =
      some (PackageSpecificConfig.toPackageReleaseConfig
        (let release_config := cfg.merge c.workspace.packages_defaults
         let release_config : PackageSpecificConfig :=
           if nv then
             { release_config with
                 common := { release_config.common with
                   publish_no_verify := some true } }
           else release_config
         let release_config : PackageSpecificConfig :=
           if ad then
             { release_config with
                 common := { release_config.common with
                   publish_allow_dirty := some true } }
           else release_config
         release_config)) := by
  have key := foldl_keyed_lookup_mem
    (fun r : ReleaseRequest => r.packages_config)
    (fun (r : ReleaseRequest) (p : String × PackageSpecificConfig) =>
      r.with_package_config p.1
        (PackageSpecificConfig.toPackageReleaseConfig
          (let release_config := p.2.merge c.workspace.packages_defaults
           let release_config : PackageSpecificConfig :=
             if nv then
               { release_config with
                   common := { release_config.common with
                     publish_no_verify := some true } }
             else release_config
           let release_config : PackageSpecificConfig :=
             if ad then
               { release_config with
                   common := { release_config.common with
                     publish_allow_dirty := some true } }
             else release_config
           release_config)))
    (fun (p : String × PackageSpecificConfig) =>
      PackageSpecificConfig.toPackageReleaseConfig
        (let release_config := p.2.merge c.workspace.packages_defaults
         let release_config : PackageSpecificConfig :=
           if nv then
             { release_config with
                 common := { release_config.common with
                   publish_no_verify := some true } }
           else release_config
         let release_config : PackageSpecificConfig :=
           if ad then
             { release_config with
                 common := { release_config.common with
                   publish_allow_dirty := some true } }
           else release_config
         release_config))
    (fun r p k => rfl)
    c.packages n c.packagesList (Config.packagesList_value c)
    ⟨(n, cfg), Config.mem_packagesList c n cfg hcfg hocc, rfl⟩
    (rr.with_default_package_config
      (PackageConfig.toReleaseConfig
        (let d := c.workspace.packages_defaults
         let d : PackageConfig := if nv then { d with publish_no_verify := some true } else d
         let d : PackageConfig := if ad then { d with publish_allow_dirty := some true } else d
         d)))
  rw [hcfg] at key
  exact key

/-- The default package config installed by `fill_update_config`. -/
theorem Config.fill_update_config_default (c : Config) (b : Bool)
    (ur : UpdateRequest) :
    (c.fill_update_config b ur).default_package_config =
      PackageConfig.toUpdateConfig
        (let d := c.workspace.packages_defaults
         let d : PackageConfig := if b then { d with changelog_update := some false } else d
         d) :=
  foldl_keyed_proj_const
    (fun r : UpdateRequest => r.default_package_config)
    (fun (r : UpdateRequest) (p : String × PackageSpecificConfig) =>
      r.with_package_config p.1
        (PackageSpecificConfig.toPackageUpdateConfig
          (let update_config := p.2.merge c.workspace.packages_defaults
           let update_config : PackageSpecificConfig :=
             if b then
               { update_config with
                   common := { update_config.common with
                     changelog_update := some false } }
             else update_config
           update_config)))
    (fun _ _ => rfl)
    c.packagesList
    (ur.with_default_package_config
      (PackageConfig.toUpdateConfig
        (let d := c.workspace.packages_defaults
         let d : PackageConfig := if b then { d with changelog_update := some false } else d
         d)))

/-- The default package config installed by `fill_release_config`. -/
theorem Config.fill_release_config_default (c : Config) (ad nv : Bool)
    (rr : ReleaseRequest) :
    (c.fill_release_config ad nv rr).default_package_config =
      PackageConfig.toReleaseConfig
        (let d := c.workspace.packages_defaults
         let d : PackageConfig := if nv then { d with publish_no_verify := some true } else d
         let d : PackageConfig := if ad then { d with publish_allow_dirty := some true } else d
         d) :=
  foldl_keyed_proj_const
    (fun r : ReleaseRequest => r.default_package_config)
    (fun (r : ReleaseRequest) (p : String × PackageSpecificConfig) =>
      r.with_package_config p.1
        (PackageSpecificConfig.toPackageReleaseConfig
          (let release_config := p.2.merge c.workspace.packages_defaults
           let release_config : PackageSpecificConfig :=
             if nv then
               { release_config with
                   common := { release_config.common with
                     publish_no_verify := some true } }
             else release_config
           let release_config : PackageSpecificConfig :=
             if ad then
               { release_config with
                   common := { release_config.common with
                     publish_allow_dirty := some true } }
             else release_config
           release_config)))
    (fun _ _ => rfl)
    c.packagesList
    (rr.with_default_package_config
      (PackageConfig.toReleaseConfig
        (let d := c.workspace.packages_defaults
         let d : PackageConfig := if nv then { d with publish_no_verify := some true } else d
         let d : PackageConfig := if ad then { d with publish_allow_dirty := some true } else d
         d)))

/-- An explicitly-true publish flag survives the conversion to
`ReleaseConfig`, whatever the other fields are. -/
theorem toReleaseConfig_publish_flags (v : PackageConfig) :
    (v.publish_no_verify = some true →
      v.toReleaseConfig.publish.no_verify = true)
    ∧ (v.publish_allow_dirty = some true →
      v.toReleaseConfig.publish.allow_dirty = true) := by
  unfold PackageConfig.toReleaseConfig
  constructor
  · intro h
    rw [h]
    cases h2 : v.publish_allow_dirty <;> rfl
  · intro h
    rw [h]
    cases h2 : v.publish_no_verify <;> rfl

/-- C2: the resolver force-flags are final. With changelog updates disabled,
every declared package resolves to `changelog_update = false` (even if it
set `true` explicitly), and so does the default config; with `allow_dirty`
(resp. `no_verify`) set, every declared package and the default resolve to
`publish.allow_dirty = true` (resp. `publish.no_verify = true`), whatever
was set at package or workspace level. -/
theorem fill_configs_apply_force_flags (c : Config) (ur : UpdateRequest)
    (rr : ReleaseRequest) (n : String) (ad nv : Bool)
    (e : PackageSpecificConfigWithName) (he : e ∈ c.package)
    (hn : e.name = n) :
    (((c.fill_update_config true ur).packages_config n).map
        (fun pc => pc.generic.changelog_update) = some false)
    ∧ (c.fill_update_config true ur).default_package_config.changelog_update
        = false
    ∧ (((c.fill_release_config true nv rr).packages_config n).map
        (fun pc => pc.generic.publish.allow_dirty) = some true)
    ∧ (((c.fill_release_config ad true rr).packages_config n).map
        (fun pc => pc.generic.publish.no_verify) = some true)
    ∧ (c.fill_release_config true nv rr).default_package_config.publish.allow_dirty
        = true
    ∧ (c.fill_release_config ad true rr).default_package_config.publish.no_verify
        = true := by
  obtain ⟨cfg, hcfg⟩ := Config.packages_isSome_of_mem c e he n hn
  have hocc : n ∈ c.package.map (fun p => p.name) := List.mem_map.mpr ⟨e, he, hn⟩
  refine ⟨?_, ?_, ?_, ?_, ?_, ?_⟩
  · rw [Config.fill_update_config_lookup c true ur n cfg hcfg hocc]
    rfl
  · rw [Config.fill_update_config_default c true ur]
    rfl
  · rw [Config.fill_release_config_lookup c true nv rr n cfg hcfg hocc]
    exact congrArg some ((toReleaseConfig_publish_flags _).2 rfl)
  · rw [Config.fill_release_config_lookup c ad true rr n cfg hcfg hocc]
    exact congrArg some ((toReleaseConfig_publish_flags _).1 (by cases ad <;> rfl))
  · rw [Config.fill_release_config_default c true nv rr]
    exact (toReleaseConfig_publish_flags _).2 rfl
  · rw [Config.fill_release_config_default c ad true rr]
    exact (toReleaseConfig_publish_flags _).1 (by cases ad <;> rfl)

/-- C2 witness: on a concrete configuration whose only package explicitly
sets `changelog_update = true`, `publish_allow_dirty = false` and
`publish_no_verify = false`, the force-flags still win everywhere. -/
theorem fill_configs_apply_force_flags_witness :
    (sampleForceEntry ∈ sampleForceConfig.package
      ∧ sampleForceEntry.name = "a")
    ∧ ((((sampleForceConfig.fill_update_config true
            sampleUpdateRequest).packages_config "a").map
          (fun pc => pc.generic.changelog_update) = some false)
    ∧ (sampleForceConfig.fill_update_config true
          sampleUpdateRequest).default_package_config.changelog_update = false
    ∧ (((sampleForceConfig.fill_release_config true false
            sampleReleaseRequest).packages_config "a").map
          (fun pc => pc.generic.publish.allow_dirty) = some true)
    ∧ (((sampleForceConfig.fill_release_config false true
            sampleReleaseRequest).packages_config "a").map
          (fun pc => pc.generic.publish.no_verify) = some true)
    ∧ (sampleForceConfig.fill_release_config true false
          sampleReleaseRequest).default_package_config.publish.allow_dirty = true
    ∧ (sampleForceConfig.fill_release_config false true
          sampleReleaseRequest).default_package_config.publish.no_verify = true) :=
  ⟨⟨List.mem_cons_self _ _, rfl⟩,
   fill_configs_apply_force_flags sampleForceConfig sampleUpdateRequest
     sampleReleaseRequest "a" false false sampleForceEntry
     (List.mem_cons_self _ _) rfl⟩

/-- C10: for a duplicated package name, both resolvers use exactly the
configuration of the entry occurring last in the declared package list:
two configurations with the same workspace section and the same last
matching entry resolve that name identically, so earlier duplicate entries
have no effect. -/
theorem resolvers_use_last_duplicate_entry (c c' : Config) (b ad nv : Bool)
    (ur : UpdateRequest) (rr : ReleaseRequest) (n : String)
    (hw : c.workspace = c'.workspace)
    (hfind : c.package.reverse.find? (fun p => p.name == n) =
      c'.package.reverse.find? (fun p => p.name == n))
    (hsome : (c.package.reverse.find? (fun p => p.name == n)).isSome) :
    (c.fill_update_config b ur).packages_config n =
      (c'.fill_update_config b ur).packages_config n
    ∧ (c.fill_release_config ad nv rr).packages_config n =
      (c'.fill_release_config ad nv rr).packages_config n := by
  obtain ⟨q, hq⟩ := Option.isSome_iff_exists.mp hsome
  have hq' : c'.package.reverse.find? (fun p => p.name == n) = some q := by
    rw [← hfind]
    exact hq
  have hcfg : c.packages n = some q.config := by
    rw [Config.packages_eq_find, hq]
    rfl
  have hcfg' : c'.packages n = some q.config := by
    rw [Config.packages_eq_find, hq']
    rfl
  have hocc : n ∈ c.package.map (fun p => p.name) := by
    have hmemq := List.mem_of_find?_eq_some hq
    rw [List.mem_reverse] at hmemq
    exact List.mem_map.mpr ⟨q, hmemq, by simpa using List.find?_some hq⟩
  have hocc' : n ∈ c'.package.map (fun p => p.name) := by
    have hmemq := List.mem_of_find?_eq_some hq'
    rw [List.mem_reverse] at hmemq
    exact List.mem_map.mpr ⟨q, hmemq, by simpa using List.find?_some hq'⟩
  constructor
  · rw [Config.fill_update_config_lookup c b ur n q.config hcfg hocc,
      Config.fill_update_config_lookup c' b ur n q.config hcfg' hocc', hw]
  · rw [Config.fill_release_config_lookup c ad nv rr n q.config hcfg hocc,
      Config.fill_release_config_lookup c' ad nv rr n q.config hcfg' hocc', hw]

/-- C10 witness: a configuration declaring "a" twice resolves "a" exactly
as the configuration containing only the later "a" entry. -/
theorem resolvers_use_last_duplicate_entry_witness :
    (sampleDupConfig.workspace = sampleDupConfigLastOnly.workspace
      ∧ sampleDupConfig.package.reverse.find? (fun p => p.name == "a") =
          sampleDupConfigLastOnly.package.reverse.find? (fun p => p.name == "a")
      ∧ (sampleDupConfig.package.reverse.find?
          (fun p => p.name == "a")).isSome)
    ∧ ((sampleDupConfig.fill_update_config false
          sampleUpdateRequest).packages_config "a" =
        (sampleDupConfigLastOnly.fill_update_config false
          sampleUpdateRequest).packages_config "a"
      ∧ (sampleDupConfig.fill_release_config false false
          sampleReleaseRequest).packages_config "a" =
        (sampleDupConfigLastOnly.fill_release_config false false
          sampleReleaseRequest).packages_config "a") :=
  ⟨⟨rfl, by decide, by decide⟩,
   resolvers_use_last_duplicate_entry sampleDupConfig sampleDupConfigLastOnly
     false false false sampleUpdateRequest sampleReleaseRequest "a" rfl
     (by decide) (by decide)⟩
